import Mathlib

/-!
Verification of `dive25/utils/base64_decoder.py`.

The program reads a text file, strips surrounding whitespace, decodes the
result with Python's `base64.b64decode` (default lenient mode), and writes
the decoded bytes to an output file (`input + ".decoded"` when no output
path is given, because `if not output_file:` also treats the empty string
as absent).  Any failure is caught, one `Error: ...` line goes to stderr
and the process exits with status 1; on success one `Decoded ... to ...`
line goes to stdout and the process exits with status 0.

The embedding below models:
  * `pyStrip`     — the ASCII part of Python `str.strip()`;
  * `charVal`     — the standard base64 digit table;
  * `a2bLoop`     — CPython `binascii.a2b_base64` in its default
                    non-strict mode: characters outside the table are
                    skipped, `=` finishing a quad of at least two data
                    characters ends the decode, and a leftover quad
                    position at the end is an error;
  * `b64decode`   — `base64.b64decode` on a `str`: an ASCII check
                    followed by the loop above;
  * `b64encode`   — standard base64 encoding (used to state round-trips);
  * `decode_base64_file` — the whole operation, with the input read and
                    the output write modelled as `Except` parameters and
                    the observable outcome collected in a `RunResult`.

Bytes are `Nat` values below 256; file contents are `List Char`.
-/

deriving instance DecidableEq for Except

namespace Dive25

/-- ASCII whitespace removed by Python `str.strip()` (space, tab,
newline, carriage return, vertical tab, form feed).  `str.strip()` also
removes some non-ASCII Unicode whitespace; only the ASCII subset is
modelled, which covers the spaces and newlines the spec talks about. -/
def isWs (c : Char) : Bool :=
  c.toNat = 32 || c.toNat = 9 || c.toNat = 10 || c.toNat = 13 ||
    c.toNat = 11 || c.toNat = 12

/-- Python `content.strip()`: drop leading and trailing whitespace. -/
def pyStrip (s : List Char) : List Char :=
  ((s.dropWhile isWs).reverse.dropWhile isWs).reverse

/-- The standard base64 digit table (`A`–`Z` ↦ 0–25, `a`–`z` ↦ 26–51,
`0`–`9` ↦ 52–61, `+` ↦ 62, `/` ↦ 63); every other character, including
the padding character `=`, has no value. -/
def charVal (c : Char) : Option Nat :=
  if 65 ≤ c.toNat ∧ c.toNat ≤ 90 then some (c.toNat - 65)
  else if 97 ≤ c.toNat ∧ c.toNat ≤ 122 then some (c.toNat - 97 + 26)
  else if 48 ≤ c.toNat ∧ c.toNat ≤ 57 then some (c.toNat - 48 + 52)
  else if c.toNat = 43 then some 62
  else if c.toNat = 47 then some 63
  else none

/-- The decode loop of CPython `binascii.a2b_base64` (non-strict mode,
the mode `base64.b64decode` uses by default).  State: the remaining
characters, the position inside the current quad (0–3), the bits carried
over from the previous character, the number of consecutive padding
characters seen, and the bytes emitted so far (in reverse).

A `=` completing a quad that already holds at least two data characters
ends the decode successfully; a `=` elsewhere is skipped.  A character
with no table value is skipped.  At the end of the input a partially
filled quad is an error ("Incorrect padding", or the dedicated message
when exactly one data character is left over). -/
def a2bLoop : List Char → Nat → Nat → Nat → List Nat → Except String (List Nat)
  | [], quadPos, _, _, acc =>
    if quadPos = 0 then Except.ok acc.reverse
    else if quadPos = 1 then
      Except.error "Invalid base64-encoded string: number of data characters cannot be 1 more than a multiple of 4"
    else Except.error "Incorrect padding"
  | c :: rest, quadPos, leftchar, pads, acc =>
    if c = '=' then
      if 2 ≤ quadPos ∧ 4 ≤ quadPos + (pads + 1) then Except.ok acc.reverse
      else if 2 ≤ quadPos then a2bLoop rest quadPos leftchar (pads + 1) acc
      else a2bLoop rest quadPos leftchar pads acc
    else
      match charVal c with
      | none => a2bLoop rest quadPos leftchar pads acc
      | some v =>
        if quadPos = 0 then a2bLoop rest 1 v 0 acc
        else if quadPos = 1 then
          a2bLoop rest 2 (v % 16) 0 ((leftchar * 4 + v / 16) :: acc)
        else if quadPos = 2 then
          a2bLoop rest 3 (v % 4) 0 ((leftchar * 16 + v / 4) :: acc)
        else a2bLoop rest 0 0 0 ((leftchar * 64 + v) :: acc)

/-- `base64.b64decode` applied to a `str`: the string is first encoded
as ASCII (a non-ASCII character raises `ValueError`), then fed to the
`a2b_base64` loop. -/
def b64decode (s : List Char) : Except String (List Nat) :=
  if s.all (fun c => c.toNat < 128) then a2bLoop s 0 0 0 []
  else Except.error "string argument should contain only ASCII characters"

/-- The character for a 6-bit value in the standard base64 alphabet. -/
def encChar (v : Nat) : Char :=
  if v < 26 then Char.ofNat (65 + v)
  else if v < 52 then Char.ofNat (97 + (v - 26))
  else if v < 62 then Char.ofNat (48 + (v - 52))
  else if v = 62 then '+'
  else '/'

/-- Standard base64 encoding of a byte list, three bytes to four
characters, padded with `=`. -/
def b64encode : List Nat → List Char
  | [] => []
  | [b1] => [encChar (b1 / 4), encChar (b1 % 4 * 16), '=', '=']
  | [b1, b2] =>
    [encChar (b1 / 4), encChar (b1 % 4 * 16 + b2 / 16), encChar (b2 % 16 * 4), '=']
  | b1 :: b2 :: b3 :: rest =>
    encChar (b1 / 4) :: encChar (b1 % 4 * 16 + b2 / 16) ::
      encChar (b2 % 16 * 4 + b3 / 64) :: encChar (b3 % 64) :: b64encode rest

/-- The observable outcome of one run of `decode_base64_file`:
process exit code, the lines printed to stdout and stderr, and the write
that was attempted on the output file (path and bytes handed to the
write step), if the run reached it. -/
structure RunResult where
  exitCode : Nat
  stdoutLines : List String
  stderrLines : List String
  writeAttempt : Option (String × List Nat)
  deriving Repr, DecidableEq

/-- The effective output path: `output_file` when it is a non-empty
string, else `input_file + ".decoded"` (Python's `if not output_file:`
treats both `None` and `""` as absent). -/
def effectiveOut (input_file : String) (output_file : Option String) : String :=
  match output_file with
  | none => input_file ++ ".decoded"
  | some q => if q = "" then input_file ++ ".decoded" else q

/-- `decode_base64_file(input_file, output_file)`.  The two file-system
interactions are passed in: `readRes` is the outcome of opening and
reading the input file as text, `writeRes` the outcome of opening the
output file and writing the decoded bytes.  The function mirrors the
Python `try:` body — read, strip, decode, pick the output path, write,
print — with the `except` clause turning any failure into one stderr
line and exit status 1. -/
def decode_base64_file (input_file : String) (output_file : Option String)
    (readRes : Except String (List Char)) (writeRes : Except String Unit) :
    RunResult :=
  match readRes with
  | Except.error e => ⟨1, [], ["Error: " ++ e], none⟩
  | Except.ok raw =>
    let content := pyStrip raw
    match b64decode content with
    | Except.error e => ⟨1, [], ["Error: " ++ e], none⟩
    | Except.ok decoded =>
      let out := effectiveOut input_file output_file
      match writeRes with
      | Except.error e => ⟨1, [], ["Error: " ++ e], some (out, decoded)⟩
      | Except.ok _ =>
        ⟨0, ["Decoded " ++ input_file ++ " to " ++ out], [], some (out, decoded)⟩

example : b64decode "SGVsbG8sIFdvcmxkIQ==".data =
    Except.ok [72, 101, 108, 108, 111, 44, 32, 87, 111, 114, 108, 100, 33] := by
  decide

example : b64decode "QQ==".data = Except.ok [65] := by decide

example :
    b64decode "QQ".data = Except.error "Incorrect padding" := by decide

example : b64decode "!QQ==".data = Except.ok [65] := by decide

example : b64decode "QQ==x".data = Except.ok [65] := by decide

example : b64encode [72, 101, 108, 108, 111] = "SGVsbG8=".data := by decide

example : pyStrip "  QQ==\n".data = "QQ==".data := by decide

/-! Helper lemmas about the character table and the encoder's output. -/

lemma charVal_pad : charVal '=' = none := by decide

lemma charVal_isSome_lt128 {c : Char} (h : (charVal c).isSome) : c.toNat < 128 := by
  unfold charVal at h
  split_ifs at h <;> first | omega | simp at h

lemma charVal_isSome_ne_pad {c : Char} (h : (charVal c).isSome) : c ≠ '=' := by
  intro hc
  rw [hc, charVal_pad] at h
  simp at h

lemma enc_charVal : ∀ v, v < 64 → charVal (encChar v) = some v := by decide

lemma enc_ne_pad : ∀ v, v < 64 → encChar v ≠ '=' := by decide

lemma enc_not_ws : ∀ v, v < 64 → isWs (encChar v) = false := by decide

lemma enc_lt128 : ∀ v, v < 64 → (encChar v).toNat < 128 := by decide

lemma b64encode_chars (B : List Nat) (hB : ∀ b ∈ B, b < 256) :
    ∀ c ∈ b64encode B, isWs c = false ∧ c.toNat < 128 := by
  induction B using b64encode.induct with
  | case1 => simp [b64encode]
  | case2 b1 =>
    have hb1 : b1 < 256 := hB b1 (by simp)
    intro c hc
    simp only [b64encode, List.mem_cons, List.not_mem_nil, or_false] at hc
    rcases hc with rfl | rfl | rfl | rfl
    · exact ⟨enc_not_ws _ (by omega), enc_lt128 _ (by omega)⟩
    · exact ⟨enc_not_ws _ (by omega), enc_lt128 _ (by omega)⟩
    · exact ⟨by decide, by decide⟩
    · exact ⟨by decide, by decide⟩
  | case3 b1 b2 =>
    have hb1 : b1 < 256 := hB b1 (by simp)
    have hb2 : b2 < 256 := hB b2 (by simp)
    intro c hc
    simp only [b64encode, List.mem_cons, List.not_mem_nil, or_false] at hc
    rcases hc with rfl | rfl | rfl | rfl
    · exact ⟨enc_not_ws _ (by omega), enc_lt128 _ (by omega)⟩
    · exact ⟨enc_not_ws _ (by omega), enc_lt128 _ (by omega)⟩
    · exact ⟨enc_not_ws _ (by omega), enc_lt128 _ (by omega)⟩
    · exact ⟨by decide, by decide⟩
  | case4 b1 b2 b3 rest ih =>
    have hb1 : b1 < 256 := hB b1 (by simp)
    have hb2 : b2 < 256 := hB b2 (by simp)
    have hb3 : b3 < 256 := hB b3 (by simp)
    intro c hc
    simp only [b64encode, List.mem_cons] at hc
    rcases hc with rfl | rfl | rfl | rfl | hc
    · exact ⟨enc_not_ws _ (by omega), enc_lt128 _ (by omega)⟩
    · exact ⟨enc_not_ws _ (by omega), enc_lt128 _ (by omega)⟩
    · exact ⟨enc_not_ws _ (by omega), enc_lt128 _ (by omega)⟩
    · exact ⟨enc_not_ws _ (by omega), enc_lt128 _ (by omega)⟩
    · exact ih (fun b hb => hB b (by simp [hb])) c hc

/-! Helper lemmas about `pyStrip`. -/

lemma dropWhile_eq_self_ws (s : List Char) (h : ∀ c ∈ s, isWs c = false) :
    s.dropWhile isWs = s := by
  cases s with
  | nil => rfl
  | cons a t => simp [List.dropWhile_cons, h a (List.mem_cons_self a t)]

lemma pyStrip_eq_self (s : List Char) (h : ∀ c ∈ s, isWs c = false) :
    pyStrip s = s := by
  unfold pyStrip
  rw [dropWhile_eq_self_ws s h,
    dropWhile_eq_self_ws _ (fun c hc => h c (List.mem_reverse.mp hc)),
    List.reverse_reverse]

lemma dropWhile_ws_append (w t : List Char) (h : ∀ c ∈ w, isWs c = true) :
    (w ++ t).dropWhile isWs = t.dropWhile isWs := by
  induction w with
  | nil => rfl
  | cons a w ih =>
    rw [List.cons_append, List.dropWhile_cons,
      if_pos (of_eq_true (by simp [h a (List.mem_cons_self a w)]))]
    exact ih (fun c hc => h c (List.mem_cons_of_mem a hc))

lemma dropWhile_all_ws (w : List Char) (h : ∀ c ∈ w, isWs c = true) :
    w.dropWhile isWs = [] := by
  have := dropWhile_ws_append w [] h
  simpa using this

lemma dropWhile_append_ne_nil (t w : List Char) (h : t.dropWhile isWs ≠ []) :
    (t ++ w).dropWhile isWs = t.dropWhile isWs ++ w := by
  induction t with
  | nil => exact absurd rfl h
  | cons a t ih =>
    by_cases ha : isWs a = true
    · rw [List.dropWhile_cons, if_pos ha] at h
      simp only [List.cons_append, List.dropWhile_cons, if_pos ha]
      exact ih h
    · simp only [List.cons_append, List.dropWhile_cons, if_neg ha,
        List.cons_append]

lemma pyStrip_pad (S w1 w2 : List Char) (h1 : ∀ c ∈ w1, isWs c = true)
    (h2 : ∀ c ∈ w2, isWs c = true) :
    pyStrip (w1 ++ S ++ w2) = pyStrip S := by
  unfold pyStrip
  rw [List.append_assoc, dropWhile_ws_append w1 (S ++ w2) h1]
  by_cases hS : S.dropWhile isWs = []
  · have hallS : ∀ c ∈ S, isWs c = true := List.dropWhile_eq_nil_iff.mp hS
    have hall : ∀ c ∈ S ++ w2, isWs c = true := by
      intro c hc
      rcases List.mem_append.mp hc with hc | hc
      · exact hallS c hc
      · exact h2 c hc
    rw [dropWhile_all_ws (S ++ w2) hall, hS]
  · rw [dropWhile_append_ne_nil S w2 hS, List.reverse_append,
      dropWhile_ws_append _ _ (fun c hc => h2 c (List.mem_reverse.mp hc))]

/-! The decode loop inverts the encoder. -/

lemma a2bLoop_encode (B : List Nat) (hB : ∀ b ∈ B, b < 256) :
    ∀ acc : List Nat,
      a2bLoop (b64encode B) 0 0 0 acc = Except.ok (acc.reverse ++ B) := by
  induction B using b64encode.induct with
  | case1 =>
    intro acc
    simp [b64encode, a2bLoop]
  | case2 b1 =>
    intro acc
    have hb1 : b1 < 256 := hB b1 (by simp)
    have h1 : charVal (encChar (b1 / 4)) = some (b1 / 4) :=
      enc_charVal _ (by omega)
    have h2 : charVal (encChar (b1 % 4 * 16)) = some (b1 % 4 * 16) :=
      enc_charVal _ (by omega)
    have n1 : ¬(encChar (b1 / 4) = '=') := enc_ne_pad _ (by omega)
    have n2 : ¬(encChar (b1 % 4 * 16) = '=') := enc_ne_pad _ (by omega)
    have e1 : b1 / 4 * 4 + b1 % 4 * 16 / 16 = b1 := by omega
    simp [b64encode, a2bLoop, h1, h2, n1, n2, e1]
    omega
  | case3 b1 b2 =>
    intro acc
    have hb1 : b1 < 256 := hB b1 (by simp)
    have hb2 : b2 < 256 := hB b2 (by simp)
    have h1 : charVal (encChar (b1 / 4)) = some (b1 / 4) :=
      enc_charVal _ (by omega)
    have h2 : charVal (encChar (b1 % 4 * 16 + b2 / 16)) =
        some (b1 % 4 * 16 + b2 / 16) := enc_charVal _ (by omega)
    have h3 : charVal (encChar (b2 % 16 * 4)) = some (b2 % 16 * 4) :=
      enc_charVal _ (by omega)
    have n1 : ¬(encChar (b1 / 4) = '=') := enc_ne_pad _ (by omega)
    have n2 : ¬(encChar (b1 % 4 * 16 + b2 / 16) = '=') :=
      enc_ne_pad _ (by omega)
    have n3 : ¬(encChar (b2 % 16 * 4) = '=') := enc_ne_pad _ (by omega)
    have e1 : b1 / 4 * 4 + (b1 % 4 * 16 + b2 / 16) / 16 = b1 := by omega
    have e2 : (b1 % 4 * 16 + b2 / 16) % 16 * 16 + b2 % 16 * 4 / 4 = b2 := by
      omega
    simp [b64encode, a2bLoop, h1, h2, h3, n1, n2, n3, e1, e2]
    omega
  | case4 b1 b2 b3 rest ih =>
    intro acc
    have hb1 : b1 < 256 := hB b1 (by simp)
    have hb2 : b2 < 256 := hB b2 (by simp)
    have hb3 : b3 < 256 := hB b3 (by simp)
    have h1 : charVal (encChar (b1 / 4)) = some (b1 / 4) :=
      enc_charVal _ (by omega)
    have h2 : charVal (encChar (b1 % 4 * 16 + b2 / 16)) =
        some (b1 % 4 * 16 + b2 / 16) := enc_charVal _ (by omega)
    have h3 : charVal (encChar (b2 % 16 * 4 + b3 / 64)) =
        some (b2 % 16 * 4 + b3 / 64) := enc_charVal _ (by omega)
    have h4 : charVal (encChar (b3 % 64)) = some (b3 % 64) :=
      enc_charVal _ (by omega)
    have n1 : ¬(encChar (b1 / 4) = '=') := enc_ne_pad _ (by omega)
    have n2 : ¬(encChar (b1 % 4 * 16 + b2 / 16) = '=') :=
      enc_ne_pad _ (by omega)
    have n3 : ¬(encChar (b2 % 16 * 4 + b3 / 64) = '=') :=
      enc_ne_pad _ (by omega)
    have n4 : ¬(encChar (b3 % 64) = '=') := enc_ne_pad _ (by omega)
    have e1 : b1 / 4 * 4 + (b1 % 4 * 16 + b2 / 16) / 16 = b1 := by omega
    have e2 : (b1 % 4 * 16 + b2 / 16) % 16 * 16 +
        (b2 % 16 * 4 + b3 / 64) / 4 = b2 := by omega
    have e3 : (b2 % 16 * 4 + b3 / 64) % 4 * 64 + b3 % 64 = b3 := by omega
    have hrest := ih (fun b hb => hB b (by simp [hb])) (b3 :: b2 :: b1 :: acc)
    simp only [b64encode, a2bLoop, h1, h2, h3, h4, if_neg n1, if_neg n2,
      if_neg n3, if_neg n4]
    norm_num
    rw [e1, e2, e3, hrest]
    simp

lemma b64decode_encode (B : List Nat) (hB : ∀ b ∈ B, b < 256) :
    b64decode (b64encode B) = Except.ok B := by
  unfold b64decode
  rw [if_pos]
  · simpa using a2bLoop_encode B hB []
  · rw [List.all_eq_true]
    intro c hc
    simpa using (b64encode_chars B hB c hc).2

/-! Characters outside the table (other than `=`) are discarded by the
decode loop: decoding is unchanged when they are removed up front. -/

/-- The characters the decode loop reacts to: base64 digits and `=`. -/
def keepChar (c : Char) : Bool := (charVal c).isSome || c = '='

lemma a2bLoop_filter : ∀ (cs : List Char) (q l p : Nat) (acc : List Nat),
    a2bLoop cs q l p acc = a2bLoop (cs.filter keepChar) q l p acc := by
  intro cs
  induction cs with
  | nil => intro q l p acc; rfl
  | cons c rest ih =>
    intro q l p acc
    by_cases hkeep : keepChar c = true
    · rw [List.filter_cons_of_pos hkeep]
      simp only [a2bLoop]
      repeat' split
      all_goals first | rfl | exact ih _ _ _ _
    · have hk : charVal c = none ∧ ¬c = '=' := by
        have := hkeep
        simp only [keepChar, Bool.or_eq_true, Option.isSome_iff_exists,
          decide_eq_true_eq] at this
        push_neg at this
        exact ⟨Option.eq_none_iff_forall_not_mem.mpr
          (fun v hv => this.1 v hv), this.2⟩
      rw [List.filter_cons_of_neg (by simpa using hkeep)]
      simp only [a2bLoop, if_neg hk.2, hk.1]
      exact ih _ _ _ _

lemma b64decode_filter (s : List Char) (h : ∀ c ∈ s, c.toNat < 128) :
    b64decode s = b64decode (s.filter keepChar) := by
  have hs : (s.all fun c => c.toNat < 128) = true := by
    rw [List.all_eq_true]
    intro c hc
    simpa using h c hc
  have hs' : ((s.filter keepChar).all fun c => c.toNat < 128) = true := by
    rw [List.all_eq_true]
    intro c hc
    simpa using h c (List.mem_of_mem_filter hc)
  unfold b64decode
  rw [if_pos hs, if_pos hs']
  exact a2bLoop_filter s 0 0 0 []

/-! A run of table characters alone (no padding, nothing discarded) whose
count is not a multiple of 4 leaves a partly filled quad, hence an error. -/

lemma a2bLoop_data_len : ∀ (cs : List Char), (∀ c ∈ cs, (charVal c).isSome) →
    ∀ q l p acc, q < 4 → (q + cs.length) % 4 ≠ 0 →
      ∃ e, a2bLoop cs q l p acc = Except.error e := by
  intro cs
  induction cs with
  | nil =>
    intro h q l p acc hq hmod
    simp only [List.length_nil, Nat.add_zero] at hmod
    have hq0 : ¬q = 0 := by omega
    by_cases hq1 : q = 1
    · exact ⟨"Invalid base64-encoded string: number of data characters cannot be 1 more than a multiple of 4",
        by simp [a2bLoop, hq0, hq1]⟩
    · exact ⟨"Incorrect padding", by simp [a2bLoop, hq0, hq1]⟩
  | cons c rest ih =>
    intro h q l p acc hq hmod
    have hv : (charVal c).isSome := h c (List.mem_cons_self _ _)
    have hne : ¬(c = '=') := charVal_isSome_ne_pad hv
    obtain ⟨v, hcv⟩ := Option.isSome_iff_exists.mp hv
    have hrest : ∀ c ∈ rest, (charVal c).isSome :=
      fun x hx => h x (List.mem_cons_of_mem _ hx)
    simp only [List.length_cons] at hmod
    interval_cases q
    · simp only [a2bLoop, if_neg hne, hcv]
      norm_num
      exact ih hrest 1 v 0 acc (by omega) (by omega)
    · simp only [a2bLoop, if_neg hne, hcv]
      norm_num
      exact ih hrest 2 (v % 16) 0 _ (by omega) (by omega)
    · simp only [a2bLoop, if_neg hne, hcv]
      norm_num
      exact ih hrest 3 (v % 4) 0 _ (by omega) (by omega)
    · simp only [a2bLoop, if_neg hne, hcv]
      norm_num
      exact ih hrest 0 0 0 _ (by omega) (by omega)

/-! Claim theorems. -/

/-- C1: running the decoder on the standard base64 encoding of an
arbitrary byte string `B` (supplied as the input file's content) succeeds
and hands exactly `B` to the output write; decoding is a left inverse of
standard base64 encoding. -/
theorem c1_round_trip (inp : String) (B : List Nat) (hB : ∀ b ∈ B, b < 256) :
    decode_base64_file inp none (Except.ok (b64encode B)) (Except.ok ()) =
      ⟨0, ["Decoded " ++ inp ++ " to " ++ (inp ++ ".decoded")], [],
        some (inp ++ ".decoded", B)⟩ := by
  have hstrip : pyStrip (b64encode B) = b64encode B :=
    pyStrip_eq_self _ (fun c hc => (b64encode_chars B hB c hc).1)
  have hdec : b64decode (pyStrip (b64encode B)) = Except.ok B := by
    rw [hstrip]
    exact b64decode_encode B hB
  simp only [decode_base64_file, hdec]
  rfl

/-- C1 witness: the three bytes 72, 105, 33 round-trip through the
decoder. -/
theorem c1_round_trip_witness :
    (∀ b ∈ [72, 105, 33], b < 256) ∧
      decode_base64_file "f.b64" none (Except.ok (b64encode [72, 105, 33]))
          (Except.ok ()) =
        ⟨0, ["Decoded " ++ "f.b64" ++ " to " ++ ("f.b64" ++ ".decoded")], [],
          some ("f.b64" ++ ".decoded", [72, 105, 33])⟩ :=
  ⟨by decide, c1_round_trip "f.b64" [72, 105, 33] (by decide)⟩

/-- C5: when no output path is supplied, whatever write the run attempts
goes to exactly `input_file + ".decoded"`. -/
theorem c5_default_output (inp : String) (readRes : Except String (List Char))
    (writeRes : Except String Unit) (p : String) (bs : List Nat)
    (h : (decode_base64_file inp none readRes writeRes).writeAttempt =
      some (p, bs)) : p = inp ++ ".decoded" := by
  cases readRes with
  | error e => simp [decode_base64_file] at h
  | ok raw =>
    cases hd : b64decode (pyStrip raw) with
    | error e => simp [decode_base64_file, hd] at h
    | ok decoded =>
      cases writeRes with
      | error e =>
        simp only [decode_base64_file, hd, effectiveOut] at h
        exact (Prod.mk.injEq _ _ _ _ ▸ (Option.some.injEq _ _ ▸ h)).1.symm
      | ok u =>
        simp only [decode_base64_file, hd, effectiveOut] at h
        exact (Prod.mk.injEq _ _ _ _ ▸ (Option.some.injEq _ _ ▸ h)).1.symm

/-- C5 witness: decoding `QQ==` from path `f` without `-o` targets
`f.decoded`. -/
theorem c5_default_output_witness :
    (decode_base64_file "f" none (Except.ok ['Q', 'Q', '=', '='])
        (Except.ok ())).writeAttempt = some ("f.decoded", [65]) ∧
      "f.decoded" = "f" ++ ".decoded" :=
  ⟨by decide, c5_default_output "f" (Except.ok ['Q', 'Q', '=', '='])
    (Except.ok ()) "f.decoded" [65] (by decide)⟩

/-- C6 counterexample: invoking with the explicit output path `""` does
not write to `""`: Python's `if not output_file:` treats the empty string
like an absent argument, so the write goes to `input + ".decoded"`. -/
theorem c6_counterexample :
    (decode_base64_file "in.b64" (some "") (Except.ok ['Q', 'Q', '=', '='])
        (Except.ok ())).writeAttempt = some ("in.b64.decoded", [65]) ∧
      "in.b64.decoded" ≠ "" := by decide

/-- C6 (amended): for every non-empty supplied output path `Q`, whatever
write the run attempts goes to exactly `Q`, regardless of the input
path; for `Q = ""` the default `input + ".decoded"` is used instead. -/
theorem c6_explicit_output (inp Q : String)
    (readRes : Except String (List Char)) (writeRes : Except String Unit)
    (p : String) (bs : List Nat) (hQ : Q ≠ "")
    (h : (decode_base64_file inp (some Q) readRes writeRes).writeAttempt =
      some (p, bs)) : p = Q := by
  cases readRes with
  | error e => simp [decode_base64_file] at h
  | ok raw =>
    cases hd : b64decode (pyStrip raw) with
    | error e => simp [decode_base64_file, hd] at h
    | ok decoded =>
      cases writeRes with
      | error e =>
        simp only [decode_base64_file, hd, effectiveOut, if_neg hQ] at h
        exact (Prod.mk.injEq _ _ _ _ ▸ (Option.some.injEq _ _ ▸ h)).1.symm
      | ok u =>
        simp only [decode_base64_file, hd, effectiveOut, if_neg hQ] at h
        exact (Prod.mk.injEq _ _ _ _ ▸ (Option.some.injEq _ _ ▸ h)).1.symm

/-- C6 witness: with `-o out.bin` the write goes to `out.bin`. -/
theorem c6_explicit_output_witness :
    ("out.bin" ≠ "") ∧
      (decode_base64_file "f" (some "out.bin") (Except.ok ['Q', 'Q', '=', '='])
          (Except.ok ())).writeAttempt = some ("out.bin", [65]) ∧
      "out.bin" = "out.bin" :=
  ⟨by decide, by decide,
    c6_explicit_output "f" "out.bin" (Except.ok ['Q', 'Q', '=', '='])
      (Except.ok ()) "out.bin" [65] (by decide) (by decide)⟩

/-- C7: surrounding the input content with leading and trailing
whitespace (spaces, newlines, tabs) does not change the run at all: the
whitespace is removed by the strip step before decoding. -/
theorem c7_whitespace_tolerance (inp : String) (out : Option String)
    (S w1 w2 : List Char) (writeRes : Except String Unit)
    (h1 : ∀ c ∈ w1, isWs c = true) (h2 : ∀ c ∈ w2, isWs c = true) :
    decode_base64_file inp out (Except.ok (w1 ++ S ++ w2)) writeRes =
      decode_base64_file inp out (Except.ok S) writeRes := by
  simp only [decode_base64_file, pyStrip_pad S w1 w2 h1 h2]

/-- C7 witness: `"QQ=="` surrounded by a space and a newline decodes as
the bare string does. -/
theorem c7_whitespace_tolerance_witness :
    (∀ c ∈ [' '], isWs c = true) ∧ (∀ c ∈ ['\n'], isWs c = true) ∧
      decode_base64_file "f" none
          (Except.ok ([' '] ++ ['Q', 'Q', '=', '='] ++ ['\n']))
          (Except.ok ()) =
        decode_base64_file "f" none (Except.ok ['Q', 'Q', '=', '='])
          (Except.ok ()) :=
  ⟨by decide, by decide,
    c7_whitespace_tolerance "f" none ['Q', 'Q', '=', '='] [' '] ['\n']
      (Except.ok ()) (by decide) (by decide)⟩

/-- C8: on a successful run (readable input, content that decodes,
writable output) the exit status is 0, stdout carries exactly the one
line `Decoded <input> to <output>` with the effective output path, and
stderr carries nothing. -/
theorem c8_success_output (inp : String) (out : Option String)
    (raw : List Char) (bs : List Nat)
    (hdec : b64decode (pyStrip raw) = Except.ok bs) :
    decode_base64_file inp out (Except.ok raw) (Except.ok ()) =
      ⟨0, ["Decoded " ++ inp ++ " to " ++ effectiveOut inp out], [],
        some (effectiveOut inp out, bs)⟩ := by
  simp only [decode_base64_file, hdec]

/-- C8 witness: the success line and exit status for `QQ==`. -/
theorem c8_success_output_witness :
    b64decode (pyStrip ['Q', 'Q', '=', '=']) = Except.ok [65] ∧
      decode_base64_file "f" none (Except.ok ['Q', 'Q', '=', '='])
          (Except.ok ()) =
        ⟨0, ["Decoded " ++ "f" ++ " to " ++ effectiveOut "f" none], [],
          some (effectiveOut "f" none, [65])⟩ :=
  ⟨by decide, c8_success_output "f" none ['Q', 'Q', '=', '='] [65] (by decide)⟩

/-- C2 counterexample: `!QQ==` contains `!`, which is outside the base64
alphabet and is not padding, yet the run succeeds (exit 0) and produces
the byte 65: `b64decode`'s default mode discards foreign characters
instead of failing. -/
theorem c2_counterexample :
    charVal '!' = none ∧ ('!' ≠ '=') ∧
      ('!' ∈ pyStrip ['!', 'Q', 'Q', '=', '=']) ∧
      decode_base64_file "in.b64" none (Except.ok ['!', 'Q', 'Q', '=', '='])
          (Except.ok ()) =
        ⟨0, ["Decoded in.b64 to in.b64.decoded"], [],
          some ("in.b64.decoded", [65])⟩ := by
  decide

/-- C2 (amended): ASCII characters outside the base64 alphabet (and not
`=`) in the stripped content are discarded before decoding rather than
causing a failure: decoding is exactly decoding of the content with
those characters removed, so the decode step fails only through the
length/padding rules on the remaining characters (a non-ASCII character,
by contrast, does make the decode step fail). -/
theorem c2_invalid_chars_discarded (s : List Char)
    (h : ∀ c ∈ s, c.toNat < 128) :
    b64decode s = b64decode (s.filter keepChar) :=
  b64decode_filter s h

/-- C2 witness: decoding `!QQ==` equals decoding it with the foreign `!`
filtered out. -/
theorem c2_invalid_chars_discarded_witness :
    (∀ c ∈ ['!', 'Q', 'Q', '=', '='], c.toNat < 128) ∧
      b64decode ['!', 'Q', 'Q', '=', '='] =
        b64decode (['!', 'Q', 'Q', '=', '='].filter keepChar) :=
  ⟨by decide, c2_invalid_chars_discarded ['!', 'Q', 'Q', '=', '='] (by decide)⟩

/-- C3 counterexample: content that strips to the empty string is not
rejected: the decode and write steps still run, an empty byte string is
written and the run exits 0. -/
theorem c3_counterexample :
    pyStrip [' ', '\n'] = [] ∧
      decode_base64_file "in.b64" none (Except.ok [' ', '\n'])
          (Except.ok ()) =
        ⟨0, ["Decoded in.b64 to in.b64.decoded"], [],
          some ("in.b64.decoded", [])⟩ := by
  decide

/-- C3 (amended): on content that strips to the empty string the
operation still proceeds: the empty string decodes to the empty byte
string, which is written to the effective output path, with exit status
0 — matching the spec's open question (empty input is preserved, not
treated as an error), not its "only proceeds if non-empty" invariant. -/
theorem c3_empty_content (inp : String) (out : Option String)
    (raw : List Char) (h : pyStrip raw = []) :
    decode_base64_file inp out (Except.ok raw) (Except.ok ()) =
      ⟨0, ["Decoded " ++ inp ++ " to " ++ effectiveOut inp out], [],
        some (effectiveOut inp out, [])⟩ := by
  have hdec : b64decode (pyStrip raw) = Except.ok [] := by
    rw [h]
    rfl
  simp only [decode_base64_file, hdec]

/-- C3 witness: a file holding only a space and a newline yields an
empty write and a success report. -/
theorem c3_empty_content_witness :
    pyStrip [' ', '\n'] = ([] : List Char) ∧
      decode_base64_file "g" none (Except.ok [' ', '\n']) (Except.ok ()) =
        ⟨0, ["Decoded " ++ "g" ++ " to " ++ effectiveOut "g" none], [],
          some (effectiveOut "g" none, [])⟩ :=
  ⟨by decide, c3_empty_content "g" none [' ', '\n'] (by decide)⟩

/-- C4 counterexample: stripped content `QQ==x` has length 5, which is
not a multiple of 4, yet the run succeeds with exit status 0: the decode
loop stops at the padding that completes the quad and never sees the
trailing `x`. -/
theorem c4_counterexample :
    pyStrip ['Q', 'Q', '=', '=', 'x'] = ['Q', 'Q', '=', '=', 'x'] ∧
      (['Q', 'Q', '=', '=', 'x'] : List Char).length % 4 = 1 ∧
      (decode_base64_file "in.b64" none
          (Except.ok ['Q', 'Q', '=', '=', 'x'])
          (Except.ok ())).exitCode = 0 := by
  decide

/-- C4 (amended): when the stripped content consists solely of base64
digit characters (no padding, nothing to discard) and its length is not
a multiple of 4 — as in the spec's example `QQ` — the run exits with
status 1, prints one `Error:` line on stderr, prints nothing on stdout
and never reaches the write step. -/
theorem c4_length_error (inp : String) (out : Option String)
    (raw : List Char) (writeRes : Except String Unit)
    (hall : ∀ c ∈ pyStrip raw, (charVal c).isSome)
    (hlen : (pyStrip raw).length % 4 ≠ 0) :
    (decode_base64_file inp out (Except.ok raw) writeRes).exitCode = 1 ∧
      (∃ e, (decode_base64_file inp out (Except.ok raw) writeRes).stderrLines
        = ["Error: " ++ e]) ∧
      (decode_base64_file inp out (Except.ok raw) writeRes).stdoutLines = []
      ∧
      (decode_base64_file inp out (Except.ok raw) writeRes).writeAttempt =
        none := by
  have hascii : ((pyStrip raw).all fun c => c.toNat < 128) = true := by
    rw [List.all_eq_true]
    intro c hc
    simpa using charVal_isSome_lt128 (hall c hc)
  obtain ⟨e, he⟩ : ∃ e, b64decode (pyStrip raw) = Except.error e := by
    unfold b64decode
    rw [if_pos hascii]
    exact a2bLoop_data_len _ hall 0 0 0 [] (by omega) (by simpa using hlen)
  refine ⟨?_, ⟨e, ?_⟩, ?_, ?_⟩ <;> simp [decode_base64_file, he]

/-- C4 witness: the spec's example `QQ` (length 2) fails with one error
line, exit status 1 and no write. -/
theorem c4_length_error_witness :
    (∀ c ∈ pyStrip ['Q', 'Q'], (charVal c).isSome) ∧
      (pyStrip ['Q', 'Q']).length % 4 ≠ 0 ∧
      ((decode_base64_file "f" none (Except.ok ['Q', 'Q'])
          (Except.ok ())).exitCode = 1 ∧
        (∃ e, (decode_base64_file "f" none (Except.ok ['Q', 'Q'])
          (Except.ok ())).stderrLines = ["Error: " ++ e]) ∧
        (decode_base64_file "f" none (Except.ok ['Q', 'Q'])
          (Except.ok ())).stdoutLines = [] ∧
        (decode_base64_file "f" none (Except.ok ['Q', 'Q'])
          (Except.ok ())).writeAttempt = none) :=
  ⟨by decide, by decide,
    c4_length_error "f" none ['Q', 'Q'] (Except.ok ()) (by decide) (by decide)⟩

/-- C9: every failing run — read error, decode error or write error — is
caught: the exit status is 1, stderr carries exactly one line of the
form `Error: <description>`, and stdout carries nothing; no other
outcome can leave the operation. -/
theorem c9_error_policy (inp : String) (out : Option String)
    (readRes : Except String (List Char)) (writeRes : Except String Unit)
    (h : (decode_base64_file inp out readRes writeRes).exitCode ≠ 0) :
    (decode_base64_file inp out readRes writeRes).exitCode = 1 ∧
      (∃ e, (decode_base64_file inp out readRes writeRes).stderrLines =
        ["Error: " ++ e]) ∧
      (decode_base64_file inp out readRes writeRes).stdoutLines = [] := by
  cases readRes with
  | error e => exact ⟨rfl, ⟨e, rfl⟩, rfl⟩
  | ok raw =>
    cases hd : b64decode (pyStrip raw) with
    | error e =>
      refine ⟨?_, ⟨e, ?_⟩, ?_⟩ <;> simp [decode_base64_file, hd]
    | ok decoded =>
      cases writeRes with
      | error e =>
        refine ⟨?_, ⟨e, ?_⟩, ?_⟩ <;> simp [decode_base64_file, hd]
      | ok u =>
        simp only [decode_base64_file, hd] at h
        exact absurd rfl h

/-- C9 witness: a read failure is reported as one `Error:` line with
exit status 1. -/
theorem c9_error_policy_witness :
    (decode_base64_file "f" none (Except.error "boom")
        (Except.ok ())).exitCode ≠ 0 ∧
      ((decode_base64_file "f" none (Except.error "boom")
          (Except.ok ())).exitCode = 1 ∧
        (∃ e, (decode_base64_file "f" none (Except.error "boom")
          (Except.ok ())).stderrLines = ["Error: " ++ e]) ∧
        (decode_base64_file "f" none (Except.error "boom")
          (Except.ok ())).stdoutLines = []) :=
  ⟨by decide,
    c9_error_policy "f" none (Except.error "boom") (Except.ok ()) (by decide)⟩

/-- C10: the write step is reached only after the read and the decode
both succeed: if a run attempted a write at all, the input was read to
some content whose stripped form decoded to the bytes being written, so
a read or decode failure leaves the output file untouched. -/
theorem c10_no_write_before_decode (inp : String) (out : Option String)
    (readRes : Except String (List Char)) (writeRes : Except String Unit)
    (h : (decode_base64_file inp out readRes writeRes).writeAttempt ≠ none) :
    ∃ raw bs, readRes = Except.ok raw ∧
      b64decode (pyStrip raw) = Except.ok bs ∧
      (decode_base64_file inp out readRes writeRes).writeAttempt =
        some (effectiveOut inp out, bs) := by
  cases readRes with
  | error e => exact absurd rfl h
  | ok raw =>
    cases hd : b64decode (pyStrip raw) with
    | error e =>
      simp only [decode_base64_file, hd] at h
      exact absurd rfl h
    | ok decoded =>
      cases writeRes with
      | error e =>
        refine ⟨raw, decoded, rfl, hd, ?_⟩
        simp only [decode_base64_file, hd]
      | ok u =>
        refine ⟨raw, decoded, rfl, hd, ?_⟩
        simp only [decode_base64_file, hd]

/-- C10 witness: the successful `QQ==` run attempted exactly the write
of byte 65 to the default path, after read and decode succeeded. -/
theorem c10_no_write_before_decode_witness :
    (decode_base64_file "f" none (Except.ok ['Q', 'Q', '=', '='])
        (Except.ok ())).writeAttempt ≠ none ∧
      (∃ raw bs,
        (Except.ok ['Q', 'Q', '=', '='] : Except String (List Char)) =
          Except.ok raw ∧
        b64decode (pyStrip raw) = Except.ok bs ∧
        (decode_base64_file "f" none (Except.ok ['Q', 'Q', '=', '='])
            (Except.ok ())).writeAttempt =
          some (effectiveOut "f" none, bs)) :=
  ⟨by decide,
    c10_no_write_before_decode "f" none (Except.ok ['Q', 'Q', '=', '='])
      (Except.ok ()) (by decide)⟩

end Dive25
